import Mathlib

/-!
Shallow embedding of `phase9_runner.py` (job-application market-feedback
aggregation pipeline) and verification of its specification claims.

Modelling conventions:
* A CSV cell is read as text.  A missing cell (pandas null / `NaN`) is
  modelled as `none`.  For the optional numeric `days_since_apply` column a
  cell is `Option (Option ℝ)`: the outer layer is cell presence (pandas
  `isnull`), the inner layer is whether `pd.to_numeric(..., errors='coerce')`
  succeeds (`none` = coerced to `NaN`).
* `math.exp` / Python floats are modelled by the real numbers `ℝ`.
* A date already parsed by `datetime.date.fromisoformat` is modelled as its
  day ordinal (`ℤ`); an unparseable or missing `applied_date` is `none`,
  matching `compute_days_since` returning `None`.  "today" is an explicit
  `ℤ` parameter of the pipeline.
* A pandas `DataFrame` is a list of rows plus, per source column, a flag
  saying whether the column is present in the file.
* `dict`s built by iterating `groupby` groups are association lists in
  sorted key order (pandas `groupby` sorts group keys, and Python `dict`s
  preserve insertion order).
* A raised exception that aborts the run before any file is written is
  `Except.error`; a completed run is `Except.ok` with the four documents.
-/

namespace Phase9

/-- Constant `HALF_LIFE_DAYS = 60.0` from the source. -/
noncomputable def HALF_LIFE_DAYS : ℝ := 60.0

/-- Constant `LAMBDA = math.log(2.0) / HALF_LIFE_DAYS` from the source. -/
noncomputable def LAMBDA : ℝ := Real.log 2.0 / HALF_LIFE_DAYS

/-- Mapping `STAGE_SCORES` from `current_stage` strings to numeric scores. -/
def STAGE_SCORES : List (String × ℕ) :=
  [("Auto_Rejected", 0), ("Rejected_No_Response", 0), ("Recruiter_Screen", 1),
   ("Hiring_Manager", 2), ("Final_Round", 3), ("Offer", 4)]

/-- Enumerated failure modes `FAILURE_MODES` from the source. -/
def FAILURE_MODES : List String :=
  ["ELIGIBILITY_GATE", "ATS_PACKAGING", "DOMAIN_MISMATCH", "TOOLING_GAP",
   "SENIORITY_MISMATCH", "WEAK_EVIDENCE", "EXTERNAL_NOISE", "UNKNOWN"]

/-- Source function `compute_weight`.  The argument is the elapsed-days
value: `none` models both Python `None` and float `NaN` (the
`days_since_apply is None or math.isnan(days_since_apply)` branch). -/
noncomputable def compute_weight : Option ℝ → ℝ
  | none => 0.0
  | some d => if d < 0 then 1.0 else Real.exp (-LAMBDA * d)

/-- Source function `compute_days_since`: `(today - applied_date).days`,
`None` when the date string does not parse. -/
def compute_days_since (today : ℤ) (date : Option ℤ) : Option ℤ :=
  date.map fun d0 => today - d0

/-- One raw CSV row.  Every field is the parsed cell content; `none` is a
missing cell (or, for `applied_date`, an unparseable date). -/
structure RawRow where
  days_cell : Option (Option ℝ)
  applied_date : Option ℤ
  current_stage : Option String
  failure_mode : Option String
  config_id : Option String
  resume_variant : Option String
  cover_variant : Option String
  cluster : Option String
  ats_system : Option String

/-- The raw tracker table: data rows plus column-presence flags taken from
the CSV header. -/
structure Table where
  rows : List RawRow
  has_days_col : Bool
  has_applied_date_col : Bool
  has_stage_col : Bool
  has_failure_mode_col : Bool
  has_config_id_col : Bool
  has_resume_col : Bool
  has_cover_col : Bool
  has_cluster_col : Bool
  has_ats_col : Bool

/-- One normalized row, as produced by `load_tracker`: the derived columns
`days_since_apply`, `weight`, `stage_score`, plus the coerced categorical
and grouping columns.  `cluster` stays optional because the source never
fills missing `cluster` cells (no `fillna` on that column). -/
structure NormRow where
  days_since_apply : Option ℝ
  weight : ℝ
  stage_score : ℕ
  failure_mode : String
  config_id : String
  cluster : Option String
  ats_system : String

/-- Stage-score lookup `STAGE_SCORES.get(str(s).strip(), 0)`.  A missing
cell (`str(nan) = 'nan'`) is not in the table, hence scores 0. -/
def stage_score_of : Option String → ℕ
  | none => 0
  | some s => (STAGE_SCORES.lookup s.trim).getD 0

/-- Failure-mode coercion: absent column means a constant `'UNKNOWN'`
column, then `fillna('UNKNOWN')`, then values outside `FAILURE_MODES` are
replaced by `'UNKNOWN'`. -/
def normalize_failure_mode (has_col : Bool) (v : Option String) : String :=
  match (if has_col then v else some "UNKNOWN") with
  | none => "UNKNOWN"
  | some x => if x ∈ FAILURE_MODES then x else "UNKNOWN"

/-- Raw `config_id` column value before `fillna('unknown')`: when the
column is absent it is synthesized as `resume_variant + '_' + cover_variant`
(an absent variant column contributes the scalar `''`; a missing cell makes
the concatenation null). -/
def raw_config_id (t : Table) (r : RawRow) : Option String :=
  if t.has_config_id_col then r.config_id
  else
    match (if t.has_resume_col then r.resume_variant else some ""),
          (if t.has_cover_col then r.cover_variant else some "") with
    | some a, some b => some (a ++ "_" ++ b)
    | _, _ => none

/-- Normalization of one row.  `days` is the stored `days_since_apply`
cell (`none` = a null the later arithmetic masks out); `wx` is the value
the weight lambda passes to `compute_weight` after its
`x if x is not None else 0` guard.  The two coincide on float64 columns,
where a missing value is `NaN` (`wx = none`); on an object-dtype column a
Python `None` cell fails the guard and feeds `0` instead (`wx = some 0`). -/
noncomputable def normalize_row (t : Table) (days wx : Option ℝ) (r : RawRow) : NormRow :=
  { days_since_apply := days
    weight := compute_weight wx
    stage_score := stage_score_of (if t.has_stage_col then r.current_stage else some "Auto_Rejected")
    failure_mode := normalize_failure_mode t.has_failure_mode_col r.failure_mode
    config_id := (raw_config_id t r).getD "unknown"
    cluster := if t.has_cluster_col then r.cluster else some "UNKNOWN"
    ats_system := if t.has_ats_col then r.ats_system.getD "UNKNOWN" else "UNKNOWN" }

/-- Test `'days_since_apply' in df.columns and not df['days_since_apply'].isnull().all()`:
the explicit days column is used only when present and not all-null. -/
def days_col_usable (t : Table) : Bool :=
  t.has_days_col && !(t.rows.all fun r0 => r0.days_cell.isNone)

/-- Source function `load_tracker`.  When the explicit `days_since_apply`
column is unusable the days are recomputed from `applied_date`; if that
column is absent too, `df.get('applied_date')` returns `None` and the
subsequent `.apply` raises (`Except.error`).  In the recomputed branch the
column dtype matters for the weight lambda: when at least one date parses,
pandas infers a float64 column and unparseable rows hold `NaN`
(`compute_weight` sees `NaN`, weight 0.0); when every date is unparseable
the column stays object-dtype with Python `None` preserved, the lambda's
`x is not None` guard fails, and every row gets `compute_weight(0) = 1.0`.
In the usable-days branch `pd.to_numeric(..., errors='coerce')` always
yields float64, so missing or non-numeric cells are `NaN`. -/
noncomputable def load_tracker (today : ℤ) (t : Table) : Except String (List NormRow) :=
  if days_col_usable t then
    .ok (t.rows.map fun r =>
      normalize_row t (r.days_cell.bind id) (r.days_cell.bind id) r)
  else if t.has_applied_date_col then
    if t.rows.all fun r => (compute_days_since today r.applied_date).isNone then
      .ok (t.rows.map fun r => normalize_row t none (some 0) r)
    else
      .ok (t.rows.map fun r =>
        normalize_row t ((compute_days_since today r.applied_date).map fun n => (n : ℝ))
          ((compute_days_since today r.applied_date).map fun n => (n : ℝ)) r)
  else
    .error "AttributeError: NoneType object has no attribute 'apply'"

/-- `group['weight'].sum()`. -/
noncomputable def sum_weights (g : List NormRow) : ℝ :=
  (g.map fun r => r.weight).sum

/-- `group[group['stage_score'] >= 1]['weight'].sum()`. -/
noncomputable def recruiter_weight (g : List NormRow) : ℝ :=
  sum_weights (g.filter fun r => decide (1 ≤ r.stage_score))

/-- `(group['stage_score'] * group['weight']).sum()`. -/
noncomputable def funnel_sum (g : List NormRow) : ℝ :=
  (g.map fun r => (r.stage_score : ℝ) * r.weight).sum

/-- `(group['days_since_apply'] * group['weight']).sum()`; a `NaN` days
cell makes a `NaN` product which pandas `sum` skips, contributing 0. -/
noncomputable def rej_sum (g : List NormRow) : ℝ :=
  (g.map fun r => match r.days_since_apply with
    | none => 0
    | some d => d * r.weight).sum

/-- Group keys of a pandas `groupby`: distinct values in sorted order. -/
def sorted_keys (l : List String) : List String :=
  l.dedup.mergeSort fun a b => a ≤ b

/-- The rows of one `config_id` group. -/
def config_group (rows : List NormRow) (k : String) : List NormRow :=
  rows.filter fun r => r.config_id == k

/-- Per-config metric record of `config_performance.json`. -/
structure ConfigMetrics where
  recruiter_screen_rate : ℝ
  funnel_depth : ℝ
  average_rejection_speed : ℝ
  num_applications : ℕ
  is_baseline : Bool

/-- Metrics of one surviving config group. -/
noncomputable def config_metric_of (rows : List NormRow) (k : String) : ConfigMetrics :=
  { recruiter_screen_rate := recruiter_weight (config_group rows k) / sum_weights (config_group rows k)
    funnel_depth := funnel_sum (config_group rows k) / sum_weights (config_group rows k)
    average_rejection_speed := rej_sum (config_group rows k) / sum_weights (config_group rows k)
    num_applications := (config_group rows k).length
    is_baseline := false }

/-- First loop of `compute_config_metrics`: groups with total weight `≤ 0`
are skipped (`continue`). -/
noncomputable def config_base (rows : List NormRow) : List (String × ConfigMetrics) :=
  (sorted_keys (rows.map fun r => r.config_id)).filterMap fun k =>
    if sum_weights (config_group rows k) ≤ 0 then none
    else some (k, config_metric_of rows k)

/-- `np.median` of a list: mean of the two middle elements of the sorted
list for even length, the middle element for odd length. -/
noncomputable def np_median (l : List ℝ) : ℝ :=
  let s := l.mergeSort fun a b => a ≤ b
  if l.length % 2 = 1 then s.getD (l.length / 2) 0
  else (s.getD (l.length / 2 - 1) 0 + s.getD (l.length / 2) 0) / 2

/-- Record update `metrics['is_baseline'] = ...` of the baseline pass. -/
def set_baseline (m : ConfigMetrics) (b : Bool) : ConfigMetrics :=
  { m with is_baseline := b }

/-- Source function `compute_config_metrics`: the surviving groups, then —
only when the map is nonempty — the baseline pass marking configs with
`recruiter_screen_rate >= median` as baseline. -/
noncomputable def compute_config_metrics (rows : List NormRow) : List (String × ConfigMetrics) :=
  if (config_base rows).isEmpty then config_base rows
  else
    (config_base rows).map fun p =>
      (p.1, set_baseline p.2
        (decide (np_median ((config_base rows).map fun q => q.2.recruiter_screen_rate)
          ≤ p.2.recruiter_screen_rate)))

/-- The rows of one `cluster` group.  A missing cluster cell is a `NaN`
group key, which pandas `groupby` drops. -/
def cluster_group (rows : List NormRow) (k : String) : List NormRow :=
  rows.filter fun r => r.cluster == some k

/-- Per-cluster metric record of `cluster_yield.json`. -/
structure ClusterMetrics where
  recruiter_screen_rate : ℝ
  funnel_depth : ℝ
  cluster_yield : ℝ
  num_applications : ℕ

/-- Metrics of one surviving cluster group:
`cluster_yield = 0.6 * rate + 0.4 * (funnel_depth / 4.0)`. -/
noncomputable def cluster_metric_of (rows : List NormRow) (k : String) : ClusterMetrics :=
  { recruiter_screen_rate := recruiter_weight (cluster_group rows k) / sum_weights (cluster_group rows k)
    funnel_depth := funnel_sum (cluster_group rows k) / sum_weights (cluster_group rows k)
    cluster_yield := 0.6 * (recruiter_weight (cluster_group rows k) / sum_weights (cluster_group rows k))
      + 0.4 * (funnel_sum (cluster_group rows k) / sum_weights (cluster_group rows k) / 4.0)
    num_applications := (cluster_group rows k).length }

/-- Source function `compute_cluster_metrics`. -/
noncomputable def compute_cluster_metrics (rows : List NormRow) : List (String × ClusterMetrics) :=
  (sorted_keys (rows.filterMap fun r => r.cluster)).filterMap fun k =>
    if sum_weights (cluster_group rows k) ≤ 0 then none
    else some (k, cluster_metric_of rows k)

/-- The rows of one `ats_system` group. -/
def ats_group (rows : List NormRow) (k : String) : List NormRow :=
  rows.filter fun r => r.ats_system == k

/-- Source function `compute_ats_patterns`: for every observed ATS system,
the weighted share of each of the 8 failure modes (0.0 when the group's
total weight is not positive; the group itself is never omitted). -/
noncomputable def compute_ats_patterns (rows : List NormRow) : List (String × List (String × ℝ)) :=
  (sorted_keys (rows.map fun r => r.ats_system)).map fun ats =>
    (ats, FAILURE_MODES.map fun mode =>
      (mode,
        if 0 < sum_weights (ats_group rows ats) then
          sum_weights ((ats_group rows ats).filter fun r => r.failure_mode == mode)
            / sum_weights (ats_group rows ats)
        else 0.0))

/-- The `market_performance.json` document; `last_updated` is the run
date (`datetime.date.today()`), modelled as the day ordinal. -/
structure MarketMetrics where
  overall_recruiter_screen_rate : ℝ
  overall_funnel_depth : ℝ
  overall_cluster_yield : ℝ
  last_updated : ℤ

/-- Source function `compute_market_metrics`. -/
noncomputable def compute_market_metrics (today : ℤ) (rows : List NormRow) : MarketMetrics :=
  if sum_weights rows ≤ 0 then
    { overall_recruiter_screen_rate := 0.0
      overall_funnel_depth := 0.0
      overall_cluster_yield := 0.0
      last_updated := today }
  else
    { overall_recruiter_screen_rate := recruiter_weight rows / sum_weights rows
      overall_funnel_depth := funnel_sum rows / sum_weights rows
      overall_cluster_yield := 0.6 * (recruiter_weight rows / sum_weights rows)
        + 0.4 * (funnel_sum rows / sum_weights rows / 4.0)
      last_updated := today }

/-- Source function `run_phase9`: load, compute the four aggregates, emit.
The serialized documents are a function of this quadruple, so the quadruple
is the observable output; an exception during loading aborts the run before
any file is touched. -/
noncomputable def run_phase9 (today : ℤ) (t : Table) :
    Except String (List (String × ConfigMetrics) × List (String × ClusterMetrics)
      × List (String × List (String × ℝ)) × MarketMetrics) :=
  (load_tracker today t).map fun rows =>
    (compute_config_metrics rows, compute_cluster_metrics rows,
     compute_ats_patterns rows, compute_market_metrics today rows)

/-- The action of `load_tracker` on one row when days are recomputed from
`applied_date` and at least one date in the table parses, so the rebuilt
column is float64 and unparseable dates are `NaN`. -/
noncomputable def loaded_row (today : ℤ) (t : Table) (r : RawRow) : NormRow :=
  normalize_row t ((compute_days_since today r.applied_date).map fun n => (n : ℝ))
    ((compute_days_since today r.applied_date).map fun n => (n : ℝ)) r

/-- C1: the decay weight function is exactly the stated piecewise function:
unknown elapsed time maps to 0.0, negative elapsed time maps to exactly 1.0,
and nonnegative elapsed time `d` maps to `exp(-ln(2)/60 * d)`; consequently
`weight 0 = 1` and `weight d = weight (d + 60) * 2` for all `d ≥ 0`. -/
theorem C1_decay_weight :
    compute_weight none = 0.0 ∧
    (∀ d : ℝ, d < 0 → compute_weight (some d) = 1.0) ∧
    (∀ d : ℝ, 0 ≤ d → compute_weight (some d) = Real.exp (-(Real.log 2 / 60) * d)) ∧
    compute_weight (some 0) = 1.0 ∧
    (∀ d : ℝ, 0 ≤ d → compute_weight (some d) = compute_weight (some (d + 60)) * 2) := by
  have hexp : ∀ d : ℝ, 0 ≤ d →
      compute_weight (some d) = Real.exp (-(Real.log 2 / 60) * d) := by
    intro d hd
    simp only [compute_weight, if_neg (not_lt.2 hd), LAMBDA, HALF_LIFE_DAYS]
    norm_num
  refine ⟨rfl, ?_, hexp, ?_, ?_⟩
  · intro d hd
    simp [compute_weight, hd]
  · rw [hexp 0 le_rfl]
    norm_num
  · intro d hd
    rw [hexp d hd, hexp (d + 60) (by linarith)]
    have harg : -(Real.log 2 / 60) * (d + 60) = -(Real.log 2 / 60) * d + -(Real.log 2) := by
      ring
    rw [harg, Real.exp_add, Real.exp_neg, Real.exp_log (by norm_num : (0:ℝ) < 2),
      mul_assoc, inv_mul_cancel₀ (two_ne_zero), mul_one]

/-- C1 witness: the theorem instantiated at the concrete elapsed times
-1, 0 and 5 days. -/
theorem C1_decay_weight_witness :
    compute_weight (some (-1)) = 1.0 ∧
    compute_weight (some 0) = 1.0 ∧
    compute_weight (some 5) = compute_weight (some (5 + 60)) * 2 :=
  ⟨C1_decay_weight.2.1 (-1) (by norm_num), C1_decay_weight.2.2.2.1,
   C1_decay_weight.2.2.2.2 5 (by norm_num)⟩

/-- Concrete raw row whose every cell is missing (in particular its
`applied_date` is unparseable). -/
def rowAllMissing : RawRow :=
  ⟨none, none, none, none, none, none, none, none, none⟩

/-- Concrete table for the C2 counterexample: one all-missing row, no
explicit days column, `applied_date` column present — every date of the
table is unparseable, so the rebuilt days column stays object-dtype. -/
def tableC2 : Table :=
  { rows := [rowAllMissing]
    has_days_col := false
    has_applied_date_col := true
    has_stage_col := true
    has_failure_mode_col := true
    has_config_id_col := true
    has_resume_col := true
    has_cover_col := true
    has_cluster_col := true
    has_ats_col := true }

/-- C2 counterexample: on a table where every `applied_date` is
unparseable, the rebuilt days column keeps Python `None`, the weight
lambda's `x is not None` guard fails, and the unparseable-date row gets
weight `compute_weight(0) = 1.0` — not the claimed 0.0. -/
theorem C2_weight_counterexample :
    load_tracker 0 tableC2 = .ok [normalize_row tableC2 none (some 0) rowAllMissing] ∧
    (normalize_row tableC2 none (some 0) rowAllMissing).weight = 1 ∧
    (normalize_row tableC2 none (some 0) rowAllMissing).weight ≠ 0 := by
  have hw : (normalize_row tableC2 none (some 0) rowAllMissing).weight = 1 := by
    show compute_weight (some 0) = 1
    simp only [compute_weight]
    rw [if_neg (lt_irrefl (0 : ℝ)), mul_zero, Real.exp_zero]
  refine ⟨?_, hw, ?_⟩
  · simp [load_tracker, days_col_usable, tableC2, rowAllMissing, compute_days_since]
  · rw [hw]
    norm_num

/-- C2 amended: a row with an unparseable `applied_date` (and no usable
explicit days column) is normalized with weight 0.0 whenever at least one
date in the table parses (float64 column, `None → NaN`): then prepending
it to any group leaves every weighted sum unchanged while the raw row
count grows by one.  When every date of the table is unparseable (the
column stays object-dtype `None`), the row instead gets weight
`compute_weight(0) = 1.0`, though its unknown days still contribute
nothing to the rejection-speed numerator. -/
theorem C2_unparseable_date_amended (today : ℤ) (t : Table) (r : RawRow)
    (g : List NormRow)
    (h1 : days_col_usable t = false)
    (h2 : t.has_applied_date_col = true)
    (h3 : r.applied_date = none) :
    ((t.rows.all fun r0 => (compute_days_since today r0.applied_date).isNone) = false →
      load_tracker today t = .ok (t.rows.map (loaded_row today t)) ∧
      (loaded_row today t r).weight = 0 ∧
      (loaded_row today t r :: g).length = g.length + 1 ∧
      sum_weights (loaded_row today t r :: g) = sum_weights g ∧
      recruiter_weight (loaded_row today t r :: g) = recruiter_weight g ∧
      funnel_sum (loaded_row today t r :: g) = funnel_sum g ∧
      rej_sum (loaded_row today t r :: g) = rej_sum g) ∧
    ((t.rows.all fun r0 => (compute_days_since today r0.applied_date).isNone) = true →
      load_tracker today t = .ok (t.rows.map fun r0 => normalize_row t none (some 0) r0) ∧
      (normalize_row t none (some 0) r).weight = 1 ∧
      (normalize_row t none (some 0) r :: g).length = g.length + 1 ∧
      rej_sum (normalize_row t none (some 0) r :: g) = rej_sum g) := by
  constructor
  · intro hmix
    have hd : (loaded_row today t r).days_since_apply = none := by
      simp [loaded_row, h3, compute_days_since, normalize_row]
    have hw : (loaded_row today t r).weight = 0 := by
      simp only [loaded_row, h3, compute_days_since, Option.map_none, normalize_row,
        compute_weight]
      norm_num
    refine ⟨?_, hw, rfl, ?_, ?_, ?_, ?_⟩
    · simp [load_tracker, h1, h2, hmix, loaded_row]
    · simp [sum_weights, hw]
    · by_cases hs : 1 ≤ (loaded_row today t r).stage_score
      · simp [recruiter_weight, List.filter_cons, hs, sum_weights, hw]
      · simp [recruiter_weight, List.filter_cons, hs]
    · simp [funnel_sum, hw]
    · simp [rej_sum, hd]
  · intro hall
    have hw1 : (normalize_row t none (some 0) r).weight = 1 := by
      show compute_weight (some 0) = 1
      simp only [compute_weight]
      rw [if_neg (lt_irrefl (0 : ℝ)), mul_zero, Real.exp_zero]
    refine ⟨?_, hw1, rfl, ?_⟩
    · simp [load_tracker, h1, h2, hall]
    · simp [rej_sum, normalize_row]

/-- Concrete parseable-date row for the C2 witness. -/
def rowDated : RawRow :=
  ⟨none, some 0, none, none, none, none, none, none, none⟩

/-- Concrete mixed table for the C2 witness: one unparseable date next to
one parseable date, so the rebuilt days column is float64. -/
def tableC2m : Table :=
  { rows := [rowAllMissing, rowDated]
    has_days_col := false
    has_applied_date_col := true
    has_stage_col := true
    has_failure_mode_col := true
    has_config_id_col := true
    has_resume_col := true
    has_cover_col := true
    has_cluster_col := true
    has_ats_col := true }

/-- C2 witness: the amended theorem applied at the concrete mixed table
(weight 0 branch) and at the concrete all-unparseable table (weight 1
branch), each against the empty group. -/
theorem C2_unparseable_date_amended_witness :
    (load_tracker 0 tableC2m = .ok (tableC2m.rows.map (loaded_row 0 tableC2m)) ∧
      (loaded_row 0 tableC2m rowAllMissing).weight = 0 ∧
      (loaded_row 0 tableC2m rowAllMissing :: []).length
        = List.length ([] : List NormRow) + 1 ∧
      sum_weights (loaded_row 0 tableC2m rowAllMissing :: []) = sum_weights [] ∧
      recruiter_weight (loaded_row 0 tableC2m rowAllMissing :: []) = recruiter_weight [] ∧
      funnel_sum (loaded_row 0 tableC2m rowAllMissing :: []) = funnel_sum [] ∧
      rej_sum (loaded_row 0 tableC2m rowAllMissing :: []) = rej_sum []) ∧
    (load_tracker 0 tableC2
        = .ok (tableC2.rows.map fun r0 => normalize_row tableC2 none (some 0) r0) ∧
      (normalize_row tableC2 none (some 0) rowAllMissing).weight = 1 ∧
      (normalize_row tableC2 none (some 0) rowAllMissing :: []).length
        = List.length ([] : List NormRow) + 1 ∧
      rej_sum (normalize_row tableC2 none (some 0) rowAllMissing :: []) = rej_sum []) :=
  ⟨(C2_unparseable_date_amended 0 tableC2m rowAllMissing [] rfl rfl rfl).1 rfl,
   (C2_unparseable_date_amended 0 tableC2 rowAllMissing [] rfl rfl rfl).2 rfl⟩

lemma sorted_keys_perm (l : List String) : List.Perm (sorted_keys l) l.dedup :=
  List.mergeSort_perm l.dedup _

lemma mem_sorted_keys {k : String} {l : List String} : k ∈ sorted_keys l ↔ k ∈ l := by
  rw [(sorted_keys_perm l).mem_iff, List.mem_dedup]

lemma nodup_sorted_keys (l : List String) : (sorted_keys l).Nodup :=
  ((sorted_keys_perm l).nodup_iff).2 l.nodup_dedup

lemma filterMap_if_all_pos {α β : Type} (l : List α) (Q : α → Prop) [DecidablePred Q]
    (F : α → β) (h : ∀ a ∈ l, Q a) :
    (l.filterMap fun a => if Q a then none else some (F a)) = [] := by
  induction l with
  | nil => rfl
  | cons a l ih =>
    rw [List.filterMap_cons, if_pos (h a (List.mem_cons_self a l))]
    exact ih fun b hb => h b (List.mem_cons_of_mem a hb)

lemma filterMap_if_all_neg {α β : Type} (l : List α) (Q : α → Prop) [DecidablePred Q]
    (F : α → β) (h : ∀ a ∈ l, ¬ Q a) :
    (l.filterMap fun a => if Q a then none else some (F a)) = l.map F := by
  induction l with
  | nil => rfl
  | cons a l ih =>
    rw [List.filterMap_cons, if_neg (h a (List.mem_cons_self a l)), List.map_cons,
      ih fun b hb => h b (List.mem_cons_of_mem a hb)]

lemma exists_mem_filterMap_if {β : Type} (l : List String) (Q : String → Prop)
    [DecidablePred Q] (F : String → β) (k : String) :
    (∃ m, (k, m) ∈ l.filterMap fun a => if Q a then none else some (a, F a)) ↔
      k ∈ l ∧ ¬ Q k := by
  constructor
  · rintro ⟨m, hm⟩
    rw [List.mem_filterMap] at hm
    obtain ⟨a, ha, hfa⟩ := hm
    by_cases hq : Q a
    · rw [if_pos hq] at hfa
      exact absurd hfa (by simp)
    · rw [if_neg hq, Option.some_inj, Prod.mk.injEq] at hfa
      obtain ⟨rfl, -⟩ := hfa
      exact ⟨ha, hq⟩
  · rintro ⟨hk, hq⟩
    exact ⟨F k, List.mem_filterMap.2 ⟨k, hk, by rw [if_neg hq]⟩⟩

lemma map_fst_filterMap_if_sublist {β : Type} (l : List String) (Q : String → Prop)
    [DecidablePred Q] (F : String → β) :
    List.Sublist ((l.filterMap fun a => if Q a then none else some (a, F a)).map Prod.fst)
      l := by
  induction l with
  | nil => simp
  | cons a l ih =>
    rw [List.filterMap_cons]
    by_cases hq : Q a
    · rw [if_pos hq]
      exact ih.cons a
    · rw [if_neg hq, List.map_cons]
      exact ih.cons₂ a

lemma config_group_length (rows : List NormRow) (k : String) :
    (config_group rows k).length = (rows.map fun r => r.config_id).count k := by
  rw [config_group, ← List.countP_eq_length_filter]
  simp only [List.count, List.countP_map]
  rfl

lemma sum_map_add {α M : Type} [AddCommMonoid M] (l : List α) (f g : α → M) :
    (l.map fun a => f a + g a).sum = (l.map f).sum + (l.map g).sum := by
  induction l with
  | nil => simp
  | cons a l ih =>
    simp only [List.map_cons, List.sum_cons, ih]
    rw [add_add_add_comm]

lemma sum_ite_one_of_nodup (L : List String) (a : String) (hL : L.Nodup) :
    (L.map fun k => if a == k then 1 else 0).sum = if a ∈ L then (1 : ℕ) else 0 := by
  induction L with
  | nil => simp
  | cons b L ih =>
    rw [List.map_cons, List.sum_cons]
    by_cases hba : b = a
    · subst hba
      rw [if_pos (beq_self_eq_true b), if_pos (List.mem_cons_self b L),
        ih (List.nodup_cons.1 hL).2, if_neg (List.nodup_cons.1 hL).1]
    · have hne : ¬ ((a == b) = true) := by
        simp only [beq_iff_eq]
        exact fun hab => hba hab.symm
      have hmem : (a ∈ b :: L) ↔ a ∈ L := by
        rw [List.mem_cons]
        exact or_iff_right fun hab => hba hab.symm
      rw [if_neg hne, zero_add, ih (List.nodup_cons.1 hL).2, if_congr hmem rfl rfl]

lemma sum_filter_count (l : List String) (p : String → Bool) :
    ((l.dedup.filter p).map fun k => l.count k).sum = l.countP p := by
  induction l with
  | nil => simp
  | cons a l ih =>
    rw [List.countP_cons]
    by_cases ha : a ∈ l
    · rw [List.dedup_cons_of_mem ha]
      have hcount : ∀ k ∈ l.dedup.filter p,
          (a :: l).count k = l.count k + (if a == k then 1 else 0) := by
        intro k _
        rw [List.count_cons]
      rw [List.map_congr_left hcount, sum_map_add, ih,
        sum_ite_one_of_nodup _ _ (l.nodup_dedup.filter p)]
      have hmem : (a ∈ l.dedup.filter p) ↔ (p a = true) := by
        rw [List.mem_filter, List.mem_dedup]
        exact and_iff_right ha
      rw [if_congr hmem rfl rfl]
    · have hcount : ∀ k ∈ l.dedup.filter p, (a :: l).count k = l.count k := by
        intro k hk
        rw [List.count_cons, if_neg, add_zero]
        have hk2 : k ∈ l := List.mem_dedup.1 (List.mem_filter.1 hk).1
        simp only [beq_iff_eq]
        intro hak
        subst hak
        exact ha hk2
      rw [List.dedup_cons_of_not_mem ha, List.filter_cons]
      by_cases hpa : p a = true
      · rw [if_pos hpa, if_pos hpa, List.map_cons, List.sum_cons, List.count_cons,
          if_pos (beq_self_eq_true a), List.count_eq_zero_of_not_mem ha,
          List.map_congr_left hcount, ih]
        omega
      · rw [if_neg hpa, if_neg hpa, add_zero, List.map_congr_left hcount, ih]

lemma filterMap_if_eq_filter_map {α β : Type} (l : List α) (Q : α → Prop) [DecidablePred Q]
    (F : α → β) :
    (l.filterMap fun a => if Q a then none else some (F a))
      = (l.filter fun a => decide (¬ Q a)).map F := by
  induction l with
  | nil => rfl
  | cons a l ih =>
    rw [List.filterMap_cons, List.filter_cons]
    by_cases hq : Q a
    · have hd : ¬ ((decide (¬ Q a)) = true) := by simp [hq]
      rw [if_pos hq, if_neg hd, ih]
    · have hd : (decide (¬ Q a)) = true := by simp [hq]
      rw [if_neg hq, if_pos hd, ih, List.map_cons]

lemma num_sum_compute_config (rows : List NormRow) :
    ((compute_config_metrics rows).map fun p => p.2.num_applications).sum
      = ((config_base rows).map fun p => p.2.num_applications).sum := by
  rw [compute_config_metrics]
  split
  · rfl
  · rw [List.map_map]
    rfl

lemma config_num_sum (rows : List NormRow) :
    ((compute_config_metrics rows).map fun p => p.2.num_applications).sum
      = (rows.filter fun r =>
          decide (0 < sum_weights (config_group rows r.config_id))).length := by
  rw [num_sum_compute_config, config_base, filterMap_if_eq_filter_map, List.map_map]
  show ((((rows.map fun r => r.config_id).dedup.mergeSort fun a b => a ≤ b).filter
      fun k => decide (¬ sum_weights (config_group rows k) ≤ 0)).map
      fun k => (config_group rows k).length).sum = _
  have hperm : List.Perm
      (((rows.map fun r => r.config_id).dedup.mergeSort fun a b => a ≤ b).filter
        fun k => decide (¬ sum_weights (config_group rows k) ≤ 0))
      ((rows.map fun r => r.config_id).dedup.filter
        fun k => decide (¬ sum_weights (config_group rows k) ≤ 0)) :=
    (sorted_keys_perm (rows.map fun r => r.config_id)).filter _
  rw [(hperm.map fun k => (config_group rows k).length).sum_eq,
    List.map_congr_left fun k _ => config_group_length rows k,
    sum_filter_count, List.countP_map, List.countP_eq_length_filter]
  congr 1
  apply List.filter_congr
  intro r _
  show decide (¬ sum_weights (config_group rows r.config_id) ≤ 0)
      = decide (0 < sum_weights (config_group rows r.config_id))
  exact decide_eq_decide.2 not_le

/-- C3 counterexample rows: config "A" has a parseable `applied_date`
(weight 1), config "B" an unparseable one (weight 0 in the resulting
float64 column). -/
def rowMixedA : RawRow :=
  ⟨none, some 0, none, none, some "A", none, none, none, none⟩

def rowMixedB : RawRow :=
  ⟨none, none, none, none, some "B", none, none, none, none⟩

/-- C3 counterexample table: two data rows, no explicit days column, one
date parseable and one not. -/
def tableC3 : Table :=
  { rows := [rowMixedA, rowMixedB]
    has_days_col := false
    has_applied_date_col := true
    has_stage_col := true
    has_failure_mode_col := true
    has_config_id_col := true
    has_resume_col := true
    has_cover_col := true
    has_cluster_col := true
    has_ats_col := true }

/-- C3 counterexample: on a two-row table where config "B"'s only row has
an unparseable date (weight 0, group omitted) while config "A"'s row
parses (weight 1), the run succeeds but `num_applications` summed over the
config_performance output is 1 while the input has 2 rows — the omitted
zero-weight group's row is counted in no config group. -/
theorem C3_rowcount_counterexample :
    (load_tracker 0 tableC3).map (fun rows =>
      (((compute_config_metrics rows).map fun p => p.2.num_applications).sum, rows.length))
      = .ok (1, 2) := by
  have hload : load_tracker 0 tableC3
      = .ok [loaded_row 0 tableC3 rowMixedA, loaded_row 0 tableC3 rowMixedB] := by
    simp [load_tracker, days_col_usable, tableC3, rowMixedA, rowMixedB,
      compute_days_since, loaded_row]
  have hcidA : (loaded_row 0 tableC3 rowMixedA).config_id = "A" := rfl
  have hcidB : (loaded_row 0 tableC3 rowMixedB).config_id = "B" := rfl
  have hwA : (loaded_row 0 tableC3 rowMixedA).weight = 1 := by
    show compute_weight ((compute_days_since 0 rowMixedA.applied_date).map fun n => (n : ℝ)) = 1
    simp only [rowMixedA, compute_days_since, Option.map_some, compute_weight]
    norm_num [Real.exp_zero]
  have hwB : (loaded_row 0 tableC3 rowMixedB).weight = 0 := by
    show compute_weight ((compute_days_since 0 rowMixedB.applied_date).map fun n => (n : ℝ)) = 0
    simp only [rowMixedB, compute_days_since, Option.map_none, compute_weight]
    norm_num
  set nA := loaded_row 0 tableC3 rowMixedA with hnA
  set nB := loaded_row 0 tableC3 rowMixedB with hnB
  have hgA : config_group [nA, nB] "A" = [nA] := by
    have hBA : (("B" : String) == "A") = false := rfl
    simp [config_group, List.filter_cons, hcidA, hcidB, hBA]
  have hgB : config_group [nA, nB] "B" = [nB] := by
    have hAB : (("A" : String) == "B") = false := rfl
    simp [config_group, List.filter_cons, hcidA, hcidB, hAB]
  have hWA : (0 : ℝ) < sum_weights (config_group [nA, nB] "A") := by
    rw [hgA]
    simp [sum_weights, hwA]
  have hWB : ¬ (0 : ℝ) < sum_weights (config_group [nA, nB] "B") := by
    rw [hgB]
    simp [sum_weights, hwB]
  have hsum : ((compute_config_metrics [nA, nB]).map fun p => p.2.num_applications).sum
      = 1 := by
    rw [config_num_sum]
    simp [List.filter_cons, hcidA, hcidB, decide_eq_true hWA, decide_eq_false hWB]
  rw [hload]
  simp only [Except.map, hsum]
  rfl

/-- C3 amended: `num_applications` summed across the config groups present
in the output equals the number of input rows whose config group has
positive total weight; in particular it equals the total input row count
whenever every config group has positive total weight (rows of omitted
zero-weight groups are not counted). -/
theorem C3_rowcount_amended (rows : List NormRow) :
    (((compute_config_metrics rows).map fun p => p.2.num_applications).sum
      = (rows.filter fun r =>
          decide (0 < sum_weights (config_group rows r.config_id))).length) ∧
    ((∀ k ∈ rows.map (fun r => r.config_id), 0 < sum_weights (config_group rows k)) →
      ((compute_config_metrics rows).map fun p => p.2.num_applications).sum
        = rows.length) := by
  refine ⟨config_num_sum rows, ?_⟩
  intro h
  rw [config_num_sum]
  congr 1
  apply List.filter_eq_self.2
  intro r hr
  exact decide_eq_true (h r.config_id (List.mem_map.2 ⟨r, hr, rfl⟩))

/-- C3 amended witness: a one-row table with weight 1 (future-dated
application), where the sum of `num_applications` is the row count 1. -/
theorem C3_rowcount_amended_witness :
    ((compute_config_metrics [⟨some (-1), 1, 0, "UNKNOWN", "A", none, "S"⟩]).map
      fun p => p.2.num_applications).sum
      = List.length [(⟨some (-1), 1, 0, "UNKNOWN", "A", none, "S"⟩ : NormRow)] := by
  apply (C3_rowcount_amended _).2
  intro k hk
  rw [List.map_singleton, List.mem_singleton] at hk
  subst hk
  rw [config_group]
  simp only [List.filter_singleton, beq_self_eq_true]
  simp [sum_weights]

lemma rates_compute_config (rows : List NormRow) :
    (compute_config_metrics rows).map (fun q => q.2.recruiter_screen_rate)
      = (config_base rows).map fun q => q.2.recruiter_screen_rate := by
  rw [compute_config_metrics]
  split
  · rfl
  · rw [List.map_map]
    rfl

lemma map_fst_compute_config (rows : List NormRow) :
    (compute_config_metrics rows).map Prod.fst = (config_base rows).map Prod.fst := by
  rw [compute_config_metrics]
  split
  · rfl
  · rw [List.map_map]
    rfl

lemma exists_mem_compute_config (rows : List NormRow) (k : String) :
    (∃ m, (k, m) ∈ compute_config_metrics rows) ↔ ∃ m, (k, m) ∈ config_base rows := by
  rw [compute_config_metrics]
  by_cases hb : (config_base rows).isEmpty
  · rw [if_pos hb]
  · rw [if_neg hb]
    constructor
    · rintro ⟨m, hm⟩
      rw [List.mem_map] at hm
      obtain ⟨q, hq, hqe⟩ := hm
      have h1 : q.1 = k := congrArg Prod.fst hqe
      subst h1
      refine ⟨q.2, ?_⟩
      rw [Prod.mk.eta]
      exact hq
    · rintro ⟨m, hm⟩
      exact ⟨set_baseline m (decide (np_median
          ((config_base rows).map fun q => q.2.recruiter_screen_rate)
          ≤ m.recruiter_screen_rate)),
        List.mem_map.2 ⟨(k, m), hm, rfl⟩⟩

/-- C4: after the surviving per-config metrics are computed, a config's
`is_baseline` is true iff its `recruiter_screen_rate` is at least the
median of `recruiter_screen_rate` over all surviving configs (inclusive at
the median); when no config group survives, the output map is empty and no
classification step runs. -/
theorem C4_baseline_median (rows : List NormRow) :
    ((∀ k ∈ sorted_keys (rows.map fun r => r.config_id),
        sum_weights (config_group rows k) ≤ 0) → compute_config_metrics rows = []) ∧
    (∀ p ∈ compute_config_metrics rows,
      p.2.is_baseline = true ↔
        np_median ((compute_config_metrics rows).map fun q => q.2.recruiter_screen_rate)
          ≤ p.2.recruiter_screen_rate) := by
  constructor
  · intro hall
    have hbase : config_base rows = [] := filterMap_if_all_pos _ _ _ hall
    rw [compute_config_metrics, hbase]
    simp
  · intro p hp
    rw [rates_compute_config, compute_config_metrics] at *
    by_cases hb : (config_base rows).isEmpty
    · rw [if_pos hb] at hp
      rw [List.isEmpty_iff] at hb
      rw [hb] at hp
      exact absurd hp (List.not_mem_nil p)
    · rw [if_neg hb, List.mem_map] at hp
      obtain ⟨q, hq, rfl⟩ := hp
      simp only [set_baseline, decide_eq_true_eq]

/-- C4 witness: on the empty normalized table there are no surviving
configs and the classified output map is empty. -/
theorem C4_baseline_median_witness : compute_config_metrics [] = [] :=
  (C4_baseline_median []).1 (by
    intro k hk
    rw [mem_sorted_keys] at hk
    simp at hk)

/-- C5: in the config and cluster rollups, a group key appears in the
output iff it occurs in the normalized table and its total weight is
positive (groups with total weight `≤ 0` are omitted entirely), and output
keys are pairwise distinct, so each surviving group appears exactly once. -/
theorem C5_groups_omitted_iff (rows : List NormRow) (k : String) :
    ((∃ m, (k, m) ∈ compute_config_metrics rows) ↔
      (k ∈ rows.map fun r => r.config_id) ∧ 0 < sum_weights (config_group rows k)) ∧
    ((∃ m, (k, m) ∈ compute_cluster_metrics rows) ↔
      (k ∈ rows.filterMap fun r => r.cluster) ∧ 0 < sum_weights (cluster_group rows k)) ∧
    ((compute_config_metrics rows).map Prod.fst).Nodup ∧
    ((compute_cluster_metrics rows).map Prod.fst).Nodup := by
  refine ⟨?_, ?_, ?_, ?_⟩
  · rw [exists_mem_compute_config, config_base, exists_mem_filterMap_if,
      mem_sorted_keys, not_le]
  · rw [compute_cluster_metrics, exists_mem_filterMap_if, mem_sorted_keys, not_le]
  · rw [map_fst_compute_config, config_base]
    exact (nodup_sorted_keys _).sublist (map_fst_filterMap_if_sublist _ _ _)
  · rw [compute_cluster_metrics]
    exact (nodup_sorted_keys _).sublist (map_fst_filterMap_if_sublist _ _ _)

lemma normalize_failure_mode_mem (b : Bool) (v : Option String) :
    normalize_failure_mode b v ∈ FAILURE_MODES := by
  have hu : "UNKNOWN" ∈ FAILURE_MODES := by simp [FAILURE_MODES]
  cases b with
  | false => exact hu
  | true =>
    cases v with
    | none => exact hu
    | some x =>
      show (if x ∈ FAILURE_MODES then x else "UNKNOWN") ∈ FAILURE_MODES
      split_ifs with hx
      · exact hx
      · exact hu

lemma load_tracker_failure_modes (today : ℤ) (t : Table) (rows : List NormRow)
    (h : load_tracker today t = .ok rows) :
    ∀ r ∈ rows, r.failure_mode ∈ FAILURE_MODES := by
  rw [load_tracker] at h
  by_cases h1 : days_col_usable t = true
  · rw [if_pos h1] at h
    injection h with h2
    subst h2
    intro r hr
    rw [List.mem_map] at hr
    obtain ⟨r0, -, rfl⟩ := hr
    exact normalize_failure_mode_mem _ _
  · rw [if_neg h1] at h
    by_cases h2 : t.has_applied_date_col = true
    · rw [if_pos h2] at h
      by_cases h3 : (t.rows.all fun r => (compute_days_since today r.applied_date).isNone)
          = true
      · rw [if_pos h3] at h
        injection h with h4
        subst h4
        intro r hr
        rw [List.mem_map] at hr
        obtain ⟨r0, -, rfl⟩ := hr
        exact normalize_failure_mode_mem _ _
      · rw [if_neg h3] at h
        injection h with h4
        subst h4
        intro r hr
        rw [List.mem_map] at hr
        obtain ⟨r0, -, rfl⟩ := hr
        exact normalize_failure_mode_mem _ _
    · rw [if_neg h2] at h
      exact absurd h (by simp)

lemma sum_ite_eq_of_nodup (l : List String) (x : String) (c : ℝ)
    (hl : l.Nodup) (hx : x ∈ l) :
    (l.map fun m => if x = m then c else 0).sum = c := by
  induction l with
  | nil => exact absurd hx (List.not_mem_nil x)
  | cons a l ih =>
    rw [List.map_cons, List.sum_cons]
    rcases List.mem_cons.1 hx with rfl | hmem
    · rw [if_pos rfl]
      have hz : (l.map fun m => if x = m then c else 0).sum = 0 := by
        apply List.sum_eq_zero
        intro y hy
        rw [List.mem_map] at hy
        obtain ⟨m, hm, rfl⟩ := hy
        rw [if_neg]
        intro hxm
        exact (List.nodup_cons.1 hl).1 (hxm ▸ hm)
      rw [hz, add_zero]
    · have hax : x ≠ a := fun hxa => (List.nodup_cons.1 hl).1 (hxa ▸ hmem)
      rw [if_neg hax, zero_add]
      exact ih (List.nodup_cons.1 hl).2 hmem

lemma sum_map_div {α : Type} (l : List α) (f : α → ℝ) (c : ℝ) :
    (l.map fun a => f a / c).sum = (l.map f).sum / c := by
  induction l with
  | nil => simp
  | cons a l ih =>
    simp only [List.map_cons, List.sum_cons, ih]
    rw [add_div]

lemma sum_weights_filter_modes (g : List NormRow)
    (h : ∀ r ∈ g, r.failure_mode ∈ FAILURE_MODES) :
    (FAILURE_MODES.map fun mode =>
      sum_weights (g.filter fun r => r.failure_mode == mode)).sum = sum_weights g := by
  induction g with
  | nil => simp [sum_weights]
  | cons r g ih =>
    have hr : r.failure_mode ∈ FAILURE_MODES := h r (List.mem_cons_self r g)
    have hg : ∀ r0 ∈ g, r0.failure_mode ∈ FAILURE_MODES :=
      fun r0 hr0 => h r0 (List.mem_cons_of_mem r hr0)
    have hstep : ∀ mode, sum_weights ((r :: g).filter fun r0 => r0.failure_mode == mode)
        = (if r.failure_mode = mode then r.weight else 0)
          + sum_weights (g.filter fun r0 => r0.failure_mode == mode) := by
      intro mode
      rw [List.filter_cons]
      by_cases hm : r.failure_mode = mode
      · simp [hm, sum_weights]
      · simp [hm, sum_weights]
    calc (FAILURE_MODES.map fun mode =>
          sum_weights ((r :: g).filter fun r0 => r0.failure_mode == mode)).sum
        = (FAILURE_MODES.map fun mode => (if r.failure_mode = mode then r.weight else 0)
            + sum_weights (g.filter fun r0 => r0.failure_mode == mode)).sum := by
          congr 1
          exact List.map_congr_left fun mode _ => hstep mode
      _ = (FAILURE_MODES.map fun mode => if r.failure_mode = mode then r.weight else 0).sum
            + (FAILURE_MODES.map fun mode =>
              sum_weights (g.filter fun r0 => r0.failure_mode == mode)).sum :=
          sum_map_add _ _ _
      _ = r.weight + sum_weights g := by
          rw [sum_ite_eq_of_nodup FAILURE_MODES r.failure_mode r.weight (by decide) hr, ih hg]
      _ = sum_weights (r :: g) := by simp [sum_weights]

/-- C6: the ats_outcome_patterns output has exactly one entry per observed
`ats_system` value, each entry carrying all 8 fixed failure-mode keys; for
a group with positive total weight the 8 weighted shares sum to 1 (every
normalized row's failure mode lies in the fixed vocabulary), and for a
group with total weight `≤ 0` all 8 shares are 0.0 while the group entry is
still present. -/
theorem C6_ats_shares (today : ℤ) (t : Table) (rows : List NormRow)
    (h : load_tracker today t = .ok rows) :
    ((compute_ats_patterns rows).map Prod.fst
      = sorted_keys (rows.map fun r => r.ats_system)) ∧
    (∀ p ∈ compute_ats_patterns rows,
      p.2.map Prod.fst = FAILURE_MODES ∧
      (0 < sum_weights (ats_group rows p.1) → (p.2.map Prod.snd).sum = 1) ∧
      (sum_weights (ats_group rows p.1) ≤ 0 → ∀ q ∈ p.2, q.2 = 0)) := by
  constructor
  · rw [compute_ats_patterns, List.map_map]
    exact List.map_id _
  · intro p hp
    rw [compute_ats_patterns, List.mem_map] at hp
    obtain ⟨ats, hats, rfl⟩ := hp
    refine ⟨?_, ?_, ?_⟩
    · rw [List.map_map]
      exact List.map_id _
    · intro hpos
      rw [List.map_map]
      show (FAILURE_MODES.map fun mode =>
        (if 0 < sum_weights (ats_group rows ats) then
          sum_weights ((ats_group rows ats).filter fun r => r.failure_mode == mode)
            / sum_weights (ats_group rows ats) else 0.0)).sum = 1
      simp only [if_pos hpos]
      rw [sum_map_div, sum_weights_filter_modes]
      · exact div_self (ne_of_gt hpos)
      · intro r hr
        exact load_tracker_failure_modes today t rows h r (List.mem_of_mem_filter hr)
    · intro hnonpos q hq
      rw [List.mem_map] at hq
      obtain ⟨mode, -, rfl⟩ := hq
      show (if 0 < sum_weights (ats_group rows ats) then
        sum_weights ((ats_group rows ats).filter fun r => r.failure_mode == mode)
          / sum_weights (ats_group rows ats) else 0.0) = 0
      rw [if_neg (not_lt.2 hnonpos)]
      norm_num

/-- Concrete table for the C6 witness: a header-only table with the
`applied_date` column present and no data rows. -/
def tableC6 : Table :=
  { rows := []
    has_days_col := false
    has_applied_date_col := true
    has_stage_col := true
    has_failure_mode_col := true
    has_config_id_col := true
    has_resume_col := true
    has_cover_col := true
    has_cluster_col := true
    has_ats_col := true }

/-- C6 witness: the theorem applied to the concrete empty table, whose
load succeeds with an empty normalized table. -/
theorem C6_ats_shares_witness :
    ((compute_ats_patterns ([] : List NormRow)).map Prod.fst
      = sorted_keys (([] : List NormRow).map fun r => r.ats_system)) ∧
    (∀ p ∈ compute_ats_patterns ([] : List NormRow),
      p.2.map Prod.fst = FAILURE_MODES ∧
      (0 < sum_weights (ats_group [] p.1) → (p.2.map Prod.snd).sum = 1) ∧
      (sum_weights (ats_group [] p.1) ≤ 0 → ∀ q ∈ p.2, q.2 = 0)) :=
  C6_ats_shares 0 tableC6 [] rfl

/-- Concrete row for the C7 counterexample: the `cluster` cell is missing
while the column itself is present in the table. -/
def rowNoCluster : RawRow :=
  ⟨none, some 0, none, none, some "A", none, none, none, some "S"⟩

/-- Concrete table for the C7 counterexample: the `cluster` column is
present, but its only cell is missing. -/
def tableC7 : Table :=
  { rows := [rowNoCluster]
    has_days_col := false
    has_applied_date_col := true
    has_stage_col := true
    has_failure_mode_col := true
    has_config_id_col := true
    has_resume_col := true
    has_cover_col := true
    has_cluster_col := true
    has_ats_col := true }

/-- C7 counterexample: a row whose `cluster` cell is missing in a present
`cluster` column is normalized with `cluster` still missing — not the
string "UNKNOWN" — because the source fills missing values only for
`ats_system`, never for `cluster`. -/
theorem C7_cluster_counterexample :
    load_tracker 0 tableC7 = .ok [normalize_row tableC7 (some 0) (some 0) rowNoCluster] ∧
    (normalize_row tableC7 (some 0) (some 0) rowNoCluster).cluster = none := by
  constructor
  · simp [load_tracker, days_col_usable, tableC7, rowNoCluster, compute_days_since]
  · simp [normalize_row, tableC7, rowNoCluster]

/-- C7 amended: `ats_system` is defaulted to "UNKNOWN" both when the whole
column is absent and when an individual value is missing; `cluster` is
defaulted to "UNKNOWN" only when the whole column is absent — an
individually missing `cluster` value in a present column stays missing. -/
theorem C7_unknown_defaults_amended (t : Table) (days wx : Option ℝ) (r : RawRow) :
    (t.has_cluster_col = false → (normalize_row t days wx r).cluster = some "UNKNOWN") ∧
    (t.has_cluster_col = true → (normalize_row t days wx r).cluster = r.cluster) ∧
    (t.has_ats_col = false → (normalize_row t days wx r).ats_system = "UNKNOWN") ∧
    (r.ats_system = none → (normalize_row t days wx r).ats_system = "UNKNOWN") := by
  refine ⟨?_, ?_, ?_, ?_⟩ <;> intro h <;> simp [normalize_row, h]

/-- Concrete row for the C7 witness: every cell missing. -/
def rowC7 : RawRow :=
  ⟨none, none, none, none, none, none, none, none, none⟩

/-- Concrete table for the C7 witness: `cluster` and `ats_system` columns
are both absent from the header. -/
def tableC7b : Table :=
  { rows := [rowC7]
    has_days_col := false
    has_applied_date_col := true
    has_stage_col := true
    has_failure_mode_col := true
    has_config_id_col := true
    has_resume_col := true
    has_cover_col := true
    has_cluster_col := false
    has_ats_col := false }

/-- C7 witness: the amended theorem applied at a concrete table with the
`cluster` column absent and a row with a missing `ats_system` cell. -/
theorem C7_unknown_defaults_amended_witness :
    (normalize_row tableC7b none none rowC7).cluster = some "UNKNOWN" ∧
    (normalize_row tableC7b none none rowC7).ats_system = "UNKNOWN" :=
  ⟨(C7_unknown_defaults_amended tableC7b none none rowC7).1 rfl,
   (C7_unknown_defaults_amended tableC7b none none rowC7).2.2.2 rfl⟩

/-- C8: on an empty input table (header row only, `applied_date` column
present), the run succeeds: the config, cluster and ats maps are empty and
the market document reports all three rates as 0.0 with `last_updated`
equal to the run date. -/
theorem C8_empty_input (today : ℤ) (t : Table)
    (h1 : t.rows = []) (h2 : t.has_applied_date_col = true) :
    run_phase9 today t = .ok ([], [], [], ⟨0.0, 0.0, 0.0, today⟩) := by
  have hu : days_col_usable t = false := by
    rw [days_col_usable, h1]
    simp
  have hload : load_tracker today t = .ok [] := by
    rw [load_tracker]
    simp [hu, h2, h1]
  rw [run_phase9, hload]
  have hc : compute_config_metrics [] = [] := by
    simp [compute_config_metrics, config_base, sorted_keys]
  have hcl : compute_cluster_metrics ([] : List NormRow) = [] := by
    simp [compute_cluster_metrics, sorted_keys]
  have hats : compute_ats_patterns ([] : List NormRow) = [] := by
    simp [compute_ats_patterns, sorted_keys]
  have hm : compute_market_metrics today ([] : List NormRow)
      = ⟨0.0, 0.0, 0.0, today⟩ := by
    rw [compute_market_metrics, if_pos]
    simp [sum_weights]
  simp [Except.map, hc, hcl, hats, hm]

/-- Concrete empty table for the C8 witness. -/
def tableC8 : Table :=
  { rows := []
    has_days_col := true
    has_applied_date_col := true
    has_stage_col := true
    has_failure_mode_col := true
    has_config_id_col := true
    has_resume_col := true
    has_cover_col := true
    has_cluster_col := true
    has_ats_col := true }

/-- C8 witness: the theorem applied at a concrete header-only table. -/
theorem C8_empty_input_witness :
    run_phase9 0 tableC8 = .ok ([], [], [], ⟨0.0, 0.0, 0.0, 0⟩) :=
  C8_empty_input 0 tableC8 rfl rfl

/-- C9: the whole pipeline is a deterministic function of the input table
and the run date — two runs on equal inputs with the same fixed "today"
produce equal output documents (hence byte-identical serializations). -/
theorem C9_deterministic (today1 today2 : ℤ) (t1 t2 : Table)
    (hd : today1 = today2) (ht : t1 = t2) :
    run_phase9 today1 t1 = run_phase9 today2 t2 := by
  subst hd
  subst ht
  rfl

/-- Concrete table for the C9 witness. -/
def tableC9 : Table :=
  { rows := [⟨none, some 10, some "Offer", some "WEAK_EVIDENCE", some "cfg", none, none,
      some "data", some "greenhouse"⟩]
    has_days_col := false
    has_applied_date_col := true
    has_stage_col := true
    has_failure_mode_col := true
    has_config_id_col := true
    has_resume_col := true
    has_cover_col := true
    has_cluster_col := true
    has_ats_col := true }

/-- C9 witness: two runs on the same concrete table and date agree. -/
theorem C9_deterministic_witness :
    run_phase9 100 tableC9 = run_phase9 100 tableC9 :=
  C9_deterministic 100 100 tableC9 tableC9 rfl rfl

/-- C10: when the input has no usable `days_since_apply` column (absent,
or every value null) and no `applied_date` column either, loading raises
an unrecovered exception and the run aborts with no output produced. -/
theorem C10_missing_columns_fatal (today : ℤ) (t : Table)
    (h1 : t.has_days_col = false ∨ ∀ r ∈ t.rows, r.days_cell = none)
    (h2 : t.has_applied_date_col = false) :
    load_tracker today t
      = .error "AttributeError: NoneType object has no attribute 'apply'" ∧
    run_phase9 today t
      = .error "AttributeError: NoneType object has no attribute 'apply'" := by
  have hu : days_col_usable t = false := by
    rw [days_col_usable]
    rcases h1 with h | h
    · rw [h]
      rfl
    · have hall : (t.rows.all fun r0 => r0.days_cell.isNone) = true := by
        rw [List.all_eq_true]
        intro r hr
        simp [h r hr]
      rw [hall]
      simp
  have hload : load_tracker today t
      = .error "AttributeError: NoneType object has no attribute 'apply'" := by
    rw [load_tracker]
    simp [hu, h2]
  refine ⟨hload, ?_⟩
  rw [run_phase9, hload]
  rfl

/-- Concrete table for the C10 witness: `days_since_apply` column present
but all-null, no `applied_date` column. -/
def tableC10 : Table :=
  { rows := [⟨none, none, some "Offer", none, some "cfg", none, none, none, none⟩]
    has_days_col := true
    has_applied_date_col := false
    has_stage_col := true
    has_failure_mode_col := true
    has_config_id_col := true
    has_resume_col := true
    has_cover_col := true
    has_cluster_col := true
    has_ats_col := true }

/-- C10 witness: the theorem applied at the concrete table whose days
column is all-null and whose `applied_date` column is absent. -/
theorem C10_missing_columns_fatal_witness :
    load_tracker 0 tableC10
      = .error "AttributeError: NoneType object has no attribute 'apply'" ∧
    run_phase9 0 tableC10
      = .error "AttributeError: NoneType object has no attribute 'apply'" :=
  C10_missing_columns_fatal 0 tableC10
    (Or.inr fun r hr => by
      simp only [tableC10, List.mem_singleton] at hr
      rw [hr]) rfl

end Phase9
